import Mathlib

/-
Verification of the birbs repository's core logic against its specification.

The Rust source is shallowly embedded below:

  * `src/main.rs`    — `BirdDateAndTime::new_naive` (civil time → UTC instant in
    the fixed `America/Los_Angeles` zone), `BirdDb::files_for` URL derivation,
    `check_file_available` / `check_available` (availability probing with
    `buffered(5)`).
  * `src/serve.rs`   — `head_url`, `check_file_available`,
    `check_recently_available`, `check_files_available`,
    `check_recentlies_available`.
  * `src/publish.rs` — `BirdLog::watch`, `BirdLog::parse_entry`,
    `BirdLog::publish_all`, `impl Into<DataPoint> for LogEntry`.

Machine integers do not overflow in any of the modelled code paths (timestamps
fit comfortably in i64), so integers are modelled as `Int`/`Nat`.  The f64
confidence value is only parsed, carried and re-emitted, never computed with,
so it is modelled as `Rat`.  Rust functions that can panic are modelled with an
explicit `panicked` constructor carrying the panic message.
-/

namespace Birbs

/-- A calendar date with no zone attached (model of `chrono::NaiveDate`). -/
structure NaiveDate where
  year : Nat
  month : Nat
  day : Nat
deriving DecidableEq, Repr

/-- A time of day (model of `chrono::NaiveTime`). -/
structure NaiveTime where
  hour : Nat
  minute : Nat
  second : Nat
deriving DecidableEq, Repr

/-- A civil date and time, naive (model of `chrono::NaiveDateTime`). -/
structure NaiveDateTime where
  date : NaiveDate
  time : NaiveTime
deriving DecidableEq, Repr

def isLeapYear (y : Nat) : Bool :=
  y % 4 = 0 && (y % 100 ≠ 0 || y % 400 = 0)

def daysInMonth (y m : Nat) : Nat :=
  if m = 2 then (if isLeapYear y then 29 else 28)
  else if m = 4 || m = 6 || m = 9 || m = 11 then 30
  else 31

/-- Days since 0000-03-01 of a proleptic Gregorian date (years ≥ 1), the
standard civil-from-days algorithm; all divisions are on naturals. -/
def daysFromCivil (d : NaiveDate) : Nat :=
  let y := if d.month ≤ 2 then d.year - 1 else d.year
  let era := y / 400
  let yoe := y % 400
  let mp := if d.month > 2 then d.month - 3 else d.month + 9
  let doy := (153 * mp + 2) / 5 + (d.day - 1)
  let doe := yoe * 365 + yoe / 4 - yoe / 100 + doy
  era * 146097 + doe

/-- Day of week, 0 = Sunday.  1970-01-01 (day 719468) is a Thursday. -/
def weekday (d : NaiveDate) : Nat :=
  (daysFromCivil d + 3) % 7

/-- Day of month of the second Sunday of March of year `y`. -/
def secondSundayOfMarch (y : Nat) : Nat :=
  (1 + (7 - weekday ⟨y, 3, 1⟩) % 7) + 7

/-- Day of month of the first Sunday of November of year `y`. -/
def firstSundayOfNovember (y : Nat) : Nat :=
  1 + (7 - weekday ⟨y, 11, 1⟩) % 7

def NaiveTime.secondsOfDay (t : NaiveTime) : Nat :=
  t.hour * 3600 + t.minute * 60 + t.second

/-- Seconds since the Unix epoch of a civil datetime read as UTC. -/
def toSecs (dt : NaiveDateTime) : Int :=
  ((daysFromCivil dt.date : Int) - 719468) * 86400 + (dt.time.secondsOfDay : Int)

/-- UTC offset of Pacific standard time, in seconds east of UTC. -/
def pstOffset : Int := -28800

/-- UTC offset of Pacific daylight time, in seconds east of UTC. -/
def pdtOffset : Int := -25200

/-- A zone-aware datetime (model of `chrono::DateTime<Tz>`): the UTC instant
in seconds since the epoch, the local civil representation, and the UTC offset
in effect. -/
structure Zoned where
  utc : Int
  localCivil : NaiveDateTime
  offset : Int
deriving DecidableEq, Repr

/-- Model of `chrono::LocalResult`: mapping a local civil time into a zone
yields one instant, two instants (fall-back ambiguity, earliest listed first),
or none (spring-forward gap; chrono calls this case `None`). -/
inductive LocalResult (α : Type) where
  | single (z : α)
  | ambiguous (earliest latest : α)
  | invalid
deriving DecidableEq, Repr

/-- Model of `chrono::LocalResult::single`. -/
def LocalResult.single? : LocalResult α → Option α
  | .single z => some z
  | _ => none

/-- Model of `chrono::LocalResult::earliest`. -/
def LocalResult.earliest? : LocalResult α → Option α
  | .single z => some z
  | .ambiguous e _ => some e
  | .invalid => none

/-- Classification of one local civil time in the Pacific zone. -/
inductive PacificKind where
  | standard
  | daylight
  | gap
  | overlap
deriving DecidableEq, Repr

/-- Which DST regime a Pacific local civil time falls in, per the US rules in
force since 2007 (DST starts 02:00 on the second Sunday of March, skipping to
03:00, and ends 02:00 on the first Sunday of November, repeating 01:00-02:00).
This is the rule the `chrono-tz` `America/Los_Angeles` table implements for
those years, which cover all data handled by the program. -/
def pacificKind (dt : NaiveDateTime) : PacificKind :=
  let y := dt.date.year
  let tod := dt.time.secondsOfDay
  if dt.date.month = 3 && dt.date.day = secondSundayOfMarch y then
    if tod < 2 * 3600 then .standard
    else if tod < 3 * 3600 then .gap
    else .daylight
  else if dt.date.month = 11 && dt.date.day = firstSundayOfNovember y then
    if tod < 1 * 3600 then .daylight
    else if tod < 2 * 3600 then .overlap
    else .standard
  else if dt.date.month > 3 && dt.date.month < 11 then .daylight
  else if dt.date.month = 3 && dt.date.day > secondSundayOfMarch y then .daylight
  else if dt.date.month = 11 && dt.date.day < firstSundayOfNovember y then .daylight
  else .standard

/-- Build the zoned datetime for a local civil time under one fixed offset. -/
def zonedAt (dt : NaiveDateTime) (offset : Int) : Zoned :=
  { utc := toSecs dt - offset, localCivil := dt, offset := offset }

/-- Model of `NaiveDateTime::and_local_timezone(Pacific)`: resolve a local
civil time in `America/Los_Angeles`.  In a fall-back overlap the daylight
interpretation is the earlier instant. -/
def pacificLocal (dt : NaiveDateTime) : LocalResult Zoned :=
  match pacificKind dt with
  | .standard => .single (zonedAt dt pstOffset)
  | .daylight => .single (zonedAt dt pdtOffset)
  | .gap => .invalid
  | .overlap => .ambiguous (zonedAt dt pdtOffset) (zonedAt dt pstOffset)

/-- Outcome of a Rust computation returning `anyhow::Result`: an `Ok` value,
an `Err`, or a panic with its message. -/
inductive RustResult (α : Type) where
  | ok (val : α)
  | err
  | panicked (msg : String)
deriving DecidableEq, Repr

/-- Model of `struct BirdDateAndTime` (src/main.rs:26-29).  The Rust field
`local` is named `localTime` here because `local` is a Lean keyword. -/
structure BirdDateAndTime where
  utc : Int
  localTime : Zoned
deriving DecidableEq, Repr

/-- Embedding of `BirdDateAndTime::new_naive` (src/main.rs:32-43): resolve
the civil time in the Pacific zone; `single().or_else(earliest())` picks the
unique instant, or the earlier of two ambiguous ones; a nonexistent local time
reaches `.expect("no idea time wise")` and panics. -/
def BirdDateAndTime.new_naive (date : NaiveDate) (time : NaiveTime) :
    RustResult BirdDateAndTime :=
  let no_tz : NaiveDateTime := ⟨date, time⟩
  let pacific := pacificLocal no_tz
  let best_case := pacific.single?
  let earliest := pacific.earliest?
  match best_case.orElse (fun _ => earliest) with
  | some riverside => .ok { utc := riverside.utc, localTime := riverside }
  | none => .panicked "no idea time wise"

/-- Model of the f64 confidence value: the exact rational
`mantissa / 10 ^ exponent` denoted by the decimal literal it was parsed from.
The program only parses, carries and re-emits confidences — it never computes
with them — so this exact representation is faithful, and values are only
ever compared against identically written literals. -/
structure DecimalValue where
  mantissa : Nat
  exponent : Nat
deriving DecidableEq, Repr

/-- Split a character list at every occurrence of `sep` (model of Rust's
`str::split` for a one-character pattern: empty segments are kept, a trailing
separator yields a trailing empty segment). -/
def splitChar (sep : Char) : List Char → List Char → List (List Char)
  | [], acc => [acc.reverse]
  | c :: rest, acc =>
      if c = sep then acc.reverse :: splitChar sep rest []
      else splitChar sep rest (c :: acc)

/-- Sequencing of Rust fallible steps: `?` propagates `Err`, and a panic in an
earlier step aborts everything after it. -/
def RustResult.bind (r : RustResult α) (f : α → RustResult β) : RustResult β :=
  match r with
  | .ok a => f a
  | .err => .err
  | .panicked m => .panicked m

/-- Model of the `?` operator applied to a parse returning `Result`: a `None`
from the model parser is an `Err` propagated to the caller. -/
def optToRust : Option α → RustResult α
  | some a => .ok a
  | none => .err

/-- Model of Rust slice indexing `fields[i]`: out-of-range indexing panics. -/
def fieldsIdx (l : List String) (i : Nat) : RustResult String :=
  match l.get? i with
  | some s => .ok s
  | none => .panicked "index out of bounds"

def digitsToNat? (cs : List Char) : Option Nat :=
  if cs.length > 0 && cs.all Char.isDigit then
    some (cs.foldl (fun n c => n * 10 + (c.toNat - 48)) 0)
  else
    none

/-- Model of `str::parse::<NaiveDate>` (ISO 8601 `YYYY-MM-DD`): three dash
separated decimal components forming a valid calendar date. -/
def parseNaiveDate (s : String) : Option NaiveDate :=
  match splitChar '-' s.data [] with
  | [ys, ms, ds] => do
      let y ← digitsToNat? ys
      let m ← digitsToNat? ms
      let d ← digitsToNat? ds
      if 1 ≤ m && m ≤ 12 && 1 ≤ d && d ≤ daysInMonth y m then
        some ⟨y, m, d⟩
      else
        none
  | _ => none

/-- Model of `str::parse::<NaiveTime>` (`HH:MM:SS`): three colon separated
decimal components in range. -/
def parseNaiveTime (s : String) : Option NaiveTime :=
  match splitChar ':' s.data [] with
  | [hs, ms, ss] => do
      let h ← digitsToNat? hs
      let m ← digitsToNat? ms
      let sec ← digitsToNat? ss
      if h < 24 && m < 60 && sec < 60 then
        some ⟨h, m, sec⟩
      else
        none
  | _ => none

/-- Model of `str::parse::<f64>` on the plain decimal literals that occur in
the detection log (`0.87`, `1`, …): the denoted value is captured exactly. -/
def parseConfidence (s : String) : Option DecimalValue :=
  match splitChar '.' s.data [] with
  | [w] => (digitsToNat? w).map (fun n => ⟨n, 0⟩)
  | [w, f] => do
      let iw ← digitsToNat? w
      let fr ← digitsToNat? f
      some ⟨iw * 10 ^ f.length + fr, f.length⟩
  | _ => none

/-- Model of `struct LogEntry` (src/publish.rs:145-150); `date_time` holds the
resolved UTC instant in seconds since the epoch. -/
structure LogEntry where
  date_time : Int
  common_name : String
  scientific_name : String
  confidence : DecimalValue
deriving DecidableEq, Repr

/-- Embedding of `BirdLog::parse_entry` (src/publish.rs:81-97).  The field
accesses and conversions happen in the source order: `fields[0]` parsed as a
date, `fields[1]` as a time, `fields[2]` and `fields[3]` taken verbatim,
`fields[4]` parsed as a float, then the date and time resolved through
`BirdDateAndTime::new_naive`.  Indexing past the end of the split panics. -/
def BirdLog.parse_entry (line : String) : RustResult LogEntry :=
  let fields := (splitChar ';' line.data []).map String.mk
  (fieldsIdx fields 0).bind fun f0 =>
  (optToRust (parseNaiveDate f0)).bind fun date =>
  (fieldsIdx fields 1).bind fun f1 =>
  (optToRust (parseNaiveTime f1)).bind fun time =>
  (fieldsIdx fields 2).bind fun scientific_name =>
  (fieldsIdx fields 3).bind fun common_name =>
  (fieldsIdx fields 4).bind fun f4 =>
  (optToRust (parseConfidence f4)).bind fun confidence =>
  (BirdDateAndTime.new_naive date time).bind fun bdt =>
  .ok { date_time := bdt.utc, common_name, scientific_name, confidence }

/-- Model of `influxdb2::models::DataPoint`: measurement name, tag set, field
set and an optional explicit timestamp. -/
structure DataPoint where
  measurement : String
  tags : List (String × String)
  fieldSet : List (String × DecimalValue)
  timestamp : Option Int
deriving DecidableEq, Repr

/-- Model of `influxdb2::models::data_point::DataPointBuilder`. -/
structure DataPointBuilder where
  measurement : String
  tags : List (String × String)
  fieldSet : List (String × DecimalValue)
  timestamp : Option Int
deriving DecidableEq, Repr

def DataPoint.builder (measurement : String) : DataPointBuilder :=
  { measurement, tags := [], fieldSet := [], timestamp := none }

def DataPointBuilder.tag (b : DataPointBuilder) (k v : String) : DataPointBuilder :=
  { b with tags := b.tags ++ [(k, v)] }

def DataPointBuilder.field (b : DataPointBuilder) (k : String) (v : DecimalValue) : DataPointBuilder :=
  { b with fieldSet := b.fieldSet ++ [(k, v)] }

/-- Model of `DataPointBuilder::build`: fails when no field was supplied,
otherwise produces the point with the builder's (possibly absent)
timestamp. -/
def DataPointBuilder.build (b : DataPointBuilder) : Except String DataPoint :=
  if b.fieldSet.isEmpty then
    .error "at least one field is required"
  else
    .ok { measurement := b.measurement, tags := b.tags,
          fieldSet := b.fieldSet, timestamp := b.timestamp }

/-- Embedding of `impl Into<DataPoint> for LogEntry` (src/publish.rs:155-163):
`DataPoint::builder("birds").tag("station", "backyard")
.field(common_name, confidence).build().expect(..)`.  No `.timestamp(..)` call
appears in the chain.  The `.expect` is a panic on the error case. -/
def logEntryToDataPoint (e : LogEntry) : RustResult DataPoint :=
  match (((DataPoint.builder "birds").tag "station" "backyard").field
          e.common_name e.confidence).build with
  | .ok dp => .ok dp
  | .error _ => .panicked "Error building data point"

/-- Observable effect of the ingestion pipeline: a line printed to stdout, or
a point written to the time-series sink. -/
inductive Action where
  | print (line : String)
  | publish (dp : DataPoint)
deriving DecidableEq, Repr

def Action.isPrint : Action → Bool
  | .print _ => true
  | .publish _ => false

def stripTrailingCR (l : List Char) : List Char :=
  if l.getLast? = some '\r' then l.dropLast else l

/-- Model of `BufRead::lines`: each yielded line has its terminating `\n` (and
a preceding `\r`, if any) removed; a final fragment not terminated by a
newline is still yielded; a trailing newline does not yield an extra empty
line. -/
def rustLines (cs : List Char) : List String :=
  match cs with
  | [] => []
  | _ =>
      let segs := splitChar '\n' cs []
      let segs := if segs.getLast? = some [] then segs.dropLast else segs
      segs.map (fun l => ⟨stripTrailingCR l⟩)

/-- Embedding of one iteration of the notification loop of `BirdLog::watch`
(src/publish.rs:58-76) on a change notification, as a function of the file's
current content and the cursor `pos`: if the length equals the cursor the
event is spurious and nothing happens; otherwise the code seeks to
`pos + 1`, advances the cursor to the current length, and prints every line
read from there to end of file.  The `println!("> {:?}", ..)` effect is
recorded as a `print` action carrying the line's text. -/
def watchStep (content : List Char) (pos : Nat) : Nat × List Action :=
  if content.length = pos then
    (pos, [])
  else
    (content.length, (rustLines (content.drop (pos + 1))).map .print)

/-- Embedding of the per-line loop of `BirdLog::publish_all`
(src/publish.rs:107-118): each line is parsed and the resulting point written
to the sink; an `Err` or a panic aborts the remaining lines.  The sink write
itself is modelled as the emitted `publish` action (its network outcome is an
external collaborator); the debug `println!` of the entry is not modelled. -/
def publishLines : List String → List Action × RustResult Unit
  | [] => ([], .ok ())
  | l :: rest =>
      match BirdLog.parse_entry l with
      | .ok entry =>
          match logEntryToDataPoint entry with
          | .ok dp =>
              let (acts, res) := publishLines rest
              (Action.publish dp :: acts, res)
          | .err => ([], .err)
          | .panicked m => ([], .panicked m)
      | .err => ([], .err)
      | .panicked m => ([], .panicked m)

/-- Embedding of `BirdLog::publish_all` (src/publish.rs:99-140, live branch):
read the file's lines, skip the header line, publish each remaining line. -/
def publish_all (content : List Char) : List Action × RustResult Unit :=
  publishLines ((rustLines content).drop 1)

def pad2 (n : Nat) : String :=
  if n < 10 then "0" ++ toString n else toString n

def pad4 (n : Nat) : String :=
  if n < 10 then "000" ++ toString n
  else if n < 100 then "00" ++ toString n
  else if n < 1000 then "0" ++ toString n
  else toString n

/-- Model of `when.local.format("%Y-%m-%d")`. -/
def formatYmd (d : NaiveDate) : String :=
  pad4 d.year ++ "-" ++ pad2 d.month ++ "-" ++ pad2 d.day

/-- Embedding of `urlify_string` (src/main.rs:347-349), i.e.
`i.replace(" ", "_")`; for the single-character pattern this is exactly
per-character substitution. -/
def urlify_string (i : String) : String :=
  ⟨i.data.map (fun c => if c = ' ' then '_' else c)⟩

/-- Embedding of the `audio_url` closure of `BirdDb::files_for`
(src/main.rs:351-358). -/
def audio_url_of (dateString commonName fileName : String) : String :=
  "http://192.168.0.164/By_Date/" ++ dateString ++ "/" ++
    urlify_string commonName ++ "/" ++ fileName

/-- Embedding of the `spectrogram_url` closure of `BirdDb::files_for`
(src/main.rs:360-361): the audio URL with `.png` appended. -/
def spectrogram_url_of (dateString commonName fileName : String) : String :=
  audio_url_of dateString commonName fileName ++ ".png"

/-- Model of `struct FilesFor` (src/main.rs:103-111). -/
structure FilesFor where
  whenUtc : Int
  confidence : DecimalValue
  file_name : String
  spectrogram_url : String
  audio_url : String
  available : Option Bool
deriving DecidableEq, Repr

/-- Embedding of `FilesFor::into_with_available` (src/main.rs:113-120). -/
def FilesFor.into_with_available (f : FilesFor) (b : Bool) : FilesFor :=
  { f with available := some b }

/-- Embedding of the row-to-candidate construction inside `BirdDb::files_for`
(src/main.rs:337-376): the local date of the resolved timestamp is formatted
as `%Y-%m-%d` and the two URLs are derived from it, the common name and the
file name; `available` starts out unset. -/
def files_for_row (whenResolved : BirdDateAndTime) (file_name common_name : String)
    (confidence : DecimalValue) : FilesFor :=
  let date_string := formatYmd whenResolved.localTime.localCivil.date
  { whenUtc := whenResolved.utc
    confidence
    file_name
    spectrogram_url := spectrogram_url_of date_string common_name file_name
    audio_url := audio_url_of date_string common_name file_name
    available := none }

/-- Modelled from the spec: the `Recently` record consumed by
`check_recently_available` is declared at the crate root, which is not among
the source files under src/; the spec's AvailabilityCandidate lists a resolved
instant, a confidence, a file name, the two derived URLs, and an availability
flag absent until checked.  Only the URL fields and the flag are touched by
the code under verification. -/
structure Recently where
  whenUtc : Int
  confidence : DecimalValue
  file_name : String
  spectrogram_url : String
  audio_url : String
  available : Option Bool
deriving DecidableEq, Repr

/-- Modelled from the spec: `Recently::into_with_available`, setting only the
availability flag, mirroring `FilesFor::into_with_available`. -/
def Recently.into_with_available (f : Recently) (b : Bool) : Recently :=
  { f with available := some b }

/-- Outcome of one HEAD request as seen by the caller: a response with some
HTTP status code, or a transport error. -/
inductive ProbeResult where
  | status (code : Nat)
  | failed
deriving DecidableEq, Repr

/-- Embedding of `head_url` (src/serve.rs:198-206): true exactly when the
request succeeded with status `200 OK`; every other status and every
transport error yields false. -/
def head_url (probe : String → ProbeResult) (url : String) : Bool :=
  match probe url with
  | .status s => if s = 200 then true else false
  | .failed => false

/-- Embedding of `check_file_available` (src/serve.rs:225-228): availability
is the conjunction of the HEAD probes of the spectrogram URL and the audio
URL. -/
def serve_check_file_available (probe : String → ProbeResult) (file : FilesFor) :
    FilesFor :=
  file.into_with_available
    (head_url probe file.spectrogram_url && head_url probe file.audio_url)

/-- Embedding of `check_recently_available` (src/serve.rs:208-211). -/
def serve_check_recently_available (probe : String → ProbeResult) (file : Recently) :
    Recently :=
  file.into_with_available
    (head_url probe file.spectrogram_url && head_url probe file.audio_url)

/-- Embedding of `check_file_available` (src/main.rs:414-422): this variant
sends a HEAD request only for the spectrogram URL and never touches the audio
URL; a `200 OK` yields true and anything else false. -/
def main_check_file_available (probe : String → ProbeResult) (file : FilesFor) :
    FilesFor :=
  match probe file.spectrogram_url with
  | .status s =>
      if s = 200 then file.into_with_available true
      else file.into_with_available false
  | .failed => file.into_with_available false

/-- The concurrency bound of the availability checkers
(src/serve.rs:217,234 and src/main.rs:428). -/
def CONCURRENT_REQUESTS : Nat := 5

/-- Completion events of the fan-out stage of `stream::iter(..).map(..)
.buffered(CONCURRENT_REQUESTS)`: the probes run concurrently (at most 5 in
flight) and finish in an arbitrary order `sched` over the input indices; each
completion carries its input index and its result. -/
def runWithSchedule (f : α → β) (xs : List α) (sched : List Nat) :
    List (Nat × β) :=
  sched.filterMap (fun i => (xs.get? i).map (fun x => (i, f x)))

/-- Fan-in stage of `buffered`: regardless of completion order, results are
yielded in the order of the input indices. -/
def collectInOrder (n : Nat) (events : List (Nat × β)) : List β :=
  (List.range n).filterMap
    (fun i => (events.find? (fun e => e.1 == i)).map (fun e => e.2))

/-- Embedding of `check_files_available` (src/serve.rs:230-240), parametrised
by the probe oracle and the completion schedule of the buffered stream. -/
def check_files_available (sched : List Nat) (probe : String → ProbeResult)
    (files : List FilesFor) : List FilesFor :=
  collectInOrder files.length
    (runWithSchedule (serve_check_file_available probe) files sched)

/-- Embedding of `check_recentlies_available` (src/serve.rs:213-223). -/
def check_recentlies_available (sched : List Nat) (probe : String → ProbeResult)
    (files : List Recently) : List Recently :=
  collectInOrder files.length
    (runWithSchedule (serve_check_recently_available probe) files sched)

/-- Embedding of `check_available` (src/main.rs:424-434), the main.rs variant
built on its single-probe `check_file_available`. -/
def check_available (sched : List Nat) (probe : String → ProbeResult)
    (files : List FilesFor) : List FilesFor :=
  collectInOrder files.length
    (runWithSchedule (main_check_file_available probe) files sched)

/-- A sample log line in the format of the detection log. -/
def sampleLine : String :=
  "2023-04-01;06:15:00;Corvus brachyrhynchos;American Crow;0.87"

/-- A sample log file: one header line, then one detection line, both newline
terminated. -/
def sampleLogContent : String :=
  "header\n2023-04-01;06:15:00;Corvus brachyrhynchos;American Crow;0.87\n"

/-- The entry `sampleLine` parses to (2023-04-01 06:15:00 Pacific daylight
time is 1680354900 seconds since the epoch). -/
def sampleEntry : LogEntry :=
  { date_time := 1680354900
    common_name := "American Crow"
    scientific_name := "Corvus brachyrhynchos"
    confidence := ⟨87, 2⟩ }

/-- The data point `sampleEntry` converts to. -/
def samplePoint : DataPoint :=
  { measurement := "birds"
    tags := [("station", "backyard")]
    fieldSet := [("American Crow", ⟨87, 2⟩)]
    timestamp := none }

/-- A sample availability candidate with its two derived URLs. -/
def sampleCandidate : FilesFor :=
  { whenUtc := 1680354900
    confidence := ⟨87, 2⟩
    file_name := "x.wav"
    spectrogram_url := "http://192.168.0.164/By_Date/2023-04-01/American_Crow/x.wav.png"
    audio_url := "http://192.168.0.164/By_Date/2023-04-01/American_Crow/x.wav"
    available := none }

/-- A probe oracle under which the spectrogram URL of `sampleCandidate` is
reachable with `200 OK` while every other URL (its audio URL included) fails
with a transport error. -/
def sampleProbe : String → ProbeResult := fun url =>
  if url = "http://192.168.0.164/By_Date/2023-04-01/American_Crow/x.wav.png" then
    .status 200
  else
    .failed

/-- A probe oracle under which every URL is reachable. -/
def allOkProbe : String → ProbeResult := fun _ => .status 200

/-- Three sample candidates, in confidence-descending input order. -/
def sampleFiles : List FilesFor :=
  [ { sampleCandidate with confidence := ⟨9, 1⟩, file_name := "a.wav" }
  , { sampleCandidate with confidence := ⟨8, 1⟩, file_name := "b.wav" }
  , { sampleCandidate with confidence := ⟨7, 1⟩, file_name := "c.wav" } ]

/-- Two sample recently-seen candidates. -/
def sampleRecents : List Recently :=
  [ { whenUtc := 1680354900, confidence := ⟨9, 1⟩, file_name := "a.wav"
      spectrogram_url := "http://x/a.wav.png", audio_url := "http://x/a.wav"
      available := none }
  , { whenUtc := 1680354901, confidence := ⟨8, 1⟩, file_name := "b.wav"
      spectrogram_url := "http://x/b.wav.png", audio_url := "http://x/b.wav"
      available := none } ]

/-- Helper: in the event list of a scheduled run, the first (and only) event
for an in-range index `i` that the schedule mentions carries the result of the
probe of input `i`. -/
theorem find_event (f : α → β) (xs : List α) :
    ∀ (sched : List Nat) (i : Nat), i ∈ sched → i < xs.length →
      (runWithSchedule f xs sched).find? (fun e => e.1 == i)
        = (xs.get? i).map (fun x => (i, f x)) := by
  intro sched
  induction sched with
  | nil => intro i hmem _; cases hmem
  | cons j tl ih =>
      intro i hmem hi
      simp only [runWithSchedule] at ih ⊢
      rw [List.filterMap_cons]
      cases hxj : xs.get? j with
      | none =>
          simp only [hxj, Option.map_none']
          have hij : i ≠ j := by
            intro he
            subst he
            rw [List.get?_eq_none] at hxj
            omega
          have hmem' : i ∈ tl := by
            rcases List.mem_cons.mp hmem with he | hm
            · exact absurd he hij
            · exact hm
          exact ih i hmem' hi
      | some x =>
          simp only [hxj, Option.map_some']
          by_cases hji : j = i
          · subst hji
            rw [List.find?_cons_of_pos _ (by simp)]
            rw [hxj, Option.map_some']
          · rw [List.find?_cons_of_neg _ (by simp [hji])]
            have hmem' : i ∈ tl := by
              rcases List.mem_cons.mp hmem with he | hm
              · exact absurd he.symm hji
              · exact hm
            exact ih i hmem' hi

/-- Helper: reading a list out by index over `range length` is the identity
up to `map`. -/
theorem range_filterMap_get (f : α → β) :
    ∀ (xs : List α),
      (List.range xs.length).filterMap (fun i => (xs.get? i).map f) = xs.map f := by
  intro xs
  induction xs with
  | nil => simp
  | cons x t ih =>
      rw [List.length_cons, List.range_succ_eq_map]
      show f x :: (List.map Nat.succ (List.range t.length)).filterMap
          (fun i => ((x :: t).get? i).map f) = f x :: t.map f
      rw [List.filterMap_map]
      have hcomp : ((fun i => ((x :: t).get? i).map f) ∘ Nat.succ)
          = (fun i => (t.get? i).map f) := rfl
      rw [hcomp, ih]

/-- Helper: the fan-out/fan-in pair of the `buffered` model is an
order-preserving map whenever the completion schedule covers every input
index, no matter in which order it completes them. -/
theorem buffered_eq_map (f : α → β) (xs : List α) (sched : List Nat)
    (hcov : ∀ i, i < xs.length → i ∈ sched) :
    collectInOrder xs.length (runWithSchedule f xs sched) = xs.map f := by
  unfold collectInOrder
  have hfn : ∀ i ∈ List.range xs.length,
      ((runWithSchedule f xs sched).find? (fun e => e.1 == i)).map (fun e => e.2)
        = (xs.get? i).map f := by
    intro i hi
    have hi' := List.mem_range.mp hi
    rw [find_event f xs sched i (hcov i hi') hi', Option.map_map]
    rfl
  rw [List.filterMap_congr hfn]
  exact range_filterMap_get f xs

/-- Helper: every candidate annotated by the serve-side per-file check has its
availability flag set. -/
theorem map_serve_check_all_isSome (probe : String → ProbeResult)
    (l : List FilesFor) :
    (l.map (serve_check_file_available probe)).all
      (fun f => f.available.isSome) = true := by
  rw [List.all_eq_true]
  intro a ha
  rcases List.mem_map.mp ha with ⟨b, -, rfl⟩
  rfl

/-- Helper: every recently-seen candidate annotated by the serve-side check
has its availability flag set. -/
theorem map_serve_check_recently_all_isSome (probe : String → ProbeResult)
    (l : List Recently) :
    (l.map (serve_check_recently_available probe)).all
      (fun f => f.available.isSome) = true := by
  rw [List.all_eq_true]
  intro a ha
  rcases List.mem_map.mp ha with ⟨b, -, rfl⟩
  rfl

/-- C1: the claim says that on a local time in a spring-forward gap
`BirdDateAndTime::new_naive` returns an `InvalidLocalTime` error and never
panics.  The code contradicts it: 2023-03-12 02:30:00 falls in the Pacific
spring-forward gap, `single()` and `earliest()` are both `None` there, and
the `.expect("no idea time wise")` on line 37 of src/main.rs panics; no error
value is ever produced. -/
theorem new_naive_gap_panics :
    pacificLocal ⟨⟨2023, 3, 12⟩, ⟨2, 30, 0⟩⟩ = .invalid
    ∧ BirdDateAndTime.new_naive ⟨2023, 3, 12⟩ ⟨2, 30, 0⟩
        = .panicked "no idea time wise" := by
  constructor
  · decide
  · decide

/-- C2: the claim says the watch loop resumes reading at exactly the cursor
position.  The code seeks to `pos + 1` (src/publish.rs:65), so after
appending `"line-A\n"` to an empty watched file (cursor 0) the emitted line is
`"ine-A"`: the first appended byte is dropped. -/
theorem watch_seek_off_by_one :
    watchStep "line-A\n".data 0 = (7, [Action.print "ine-A"])
    ∧ "ine-A" ≠ "line-A" := by
  constructor
  · decide
  · decide

/-- C3: `check_files_available`, `check_recentlies_available` and
`check_available` each return exactly as many candidates as they are given,
in the input order, each with its availability flag set, for every completion
schedule of the bounded-concurrency probe stream (any permutation of the
input indices). -/
theorem check_all_preserves_order (probe : String → ProbeResult)
    (files : List FilesFor) (recents : List Recently) (sched1 sched2 : List Nat)
    (h1 : sched1.Perm (List.range files.length))
    (h2 : sched2.Perm (List.range recents.length)) :
    check_files_available sched1 probe files
        = files.map (serve_check_file_available probe)
    ∧ (check_files_available sched1 probe files).length = files.length
    ∧ (check_files_available sched1 probe files).all
        (fun f => f.available.isSome) = true
    ∧ check_recentlies_available sched2 probe recents
        = recents.map (serve_check_recently_available probe)
    ∧ (check_recentlies_available sched2 probe recents).length = recents.length
    ∧ (check_recentlies_available sched2 probe recents).all
        (fun f => f.available.isSome) = true
    ∧ check_available sched1 probe files
        = files.map (main_check_file_available probe) := by
  have cov1 : ∀ i, i < files.length → i ∈ sched1 := fun i hi =>
    h1.mem_iff.mpr (List.mem_range.mpr hi)
  have cov2 : ∀ i, i < recents.length → i ∈ sched2 := fun i hi =>
    h2.mem_iff.mpr (List.mem_range.mpr hi)
  have e1 : check_files_available sched1 probe files
      = files.map (serve_check_file_available probe) :=
    buffered_eq_map _ files sched1 cov1
  have e2 : check_recentlies_available sched2 probe recents
      = recents.map (serve_check_recently_available probe) :=
    buffered_eq_map _ recents sched2 cov2
  have e3 : check_available sched1 probe files
      = files.map (main_check_file_available probe) :=
    buffered_eq_map _ files sched1 cov1
  refine ⟨e1, ?_, ?_, e2, ?_, ?_, e3⟩
  · rw [e1, List.length_map]
  · rw [e1]; exact map_serve_check_all_isSome probe files
  · rw [e2, List.length_map]
  · rw [e2]; exact map_serve_check_recently_all_isSome probe recents

/-- Witness for C3 at N = 3 candidates (and 2 recents) with out-of-order
completion schedules. -/
theorem check_all_preserves_order_witness :
    [2, 0, 1].Perm (List.range sampleFiles.length)
    ∧ [1, 0].Perm (List.range sampleRecents.length)
    ∧ (check_files_available [2, 0, 1] allOkProbe sampleFiles
          = sampleFiles.map (serve_check_file_available allOkProbe)
      ∧ (check_files_available [2, 0, 1] allOkProbe sampleFiles).length
          = sampleFiles.length
      ∧ (check_files_available [2, 0, 1] allOkProbe sampleFiles).all
          (fun f => f.available.isSome) = true
      ∧ check_recentlies_available [1, 0] allOkProbe sampleRecents
          = sampleRecents.map (serve_check_recently_available allOkProbe)
      ∧ (check_recentlies_available [1, 0] allOkProbe sampleRecents).length
          = sampleRecents.length
      ∧ (check_recentlies_available [1, 0] allOkProbe sampleRecents).all
          (fun f => f.available.isSome) = true
      ∧ check_available [2, 0, 1] allOkProbe sampleFiles
          = sampleFiles.map (main_check_file_available allOkProbe)) :=
  ⟨by decide, by decide,
    check_all_preserves_order allOkProbe sampleFiles sampleRecents [2, 0, 1] [1, 0]
      (by decide) (by decide)⟩

/-- C4 counterexample: the claim says availability is true only if the probes
of both derived URLs succeed.  For the `check_file_available` variant of
src/main.rs:414-422, under a probe oracle where the spectrogram URL answers
`200 OK` and the audio URL fails with a transport error, the flag is still
set to true: the audio URL is never probed. -/
theorem main_check_ignores_audio_counterexample :
    (main_check_file_available sampleProbe sampleCandidate).available = some true
    ∧ head_url sampleProbe sampleCandidate.audio_url = false
    ∧ sampleProbe sampleCandidate.audio_url = .failed := by
  refine ⟨?_, ?_, ?_⟩ <;> decide

/-- C4 (amended): the serve.rs per-candidate checks (`check_file_available`,
`check_recently_available`) set the flag to the conjunction of the two
probes, so it is true only if both succeed; the main.rs `check_file_available`
probes only the spectrogram URL and sets the flag to that single probe's
success; in every variant a probe failure yields false and the function
always returns an annotated candidate, never an error. -/
theorem check_availability_flag_semantics (probe : String → ProbeResult)
    (f : FilesFor) (r : Recently) :
    (serve_check_file_available probe f).available
        = some (head_url probe f.spectrogram_url && head_url probe f.audio_url)
    ∧ (serve_check_recently_available probe r).available
        = some (head_url probe r.spectrogram_url && head_url probe r.audio_url)
    ∧ (main_check_file_available probe f).available
        = some (head_url probe f.spectrogram_url) := by
  refine ⟨rfl, rfl, ?_⟩
  unfold main_check_file_available head_url FilesFor.into_with_available
  cases probe f.spectrogram_url with
  | status s =>
      by_cases h : s = 200
      · simp [h]
      · simp [h]
  | failed => rfl

/-- C5: whenever a civil time is ambiguous in the Pacific zone (a fall-back
overlap), `BirdDateAndTime::new_naive` returns the earliest of the two
candidate instants: `single()` is `None`, so `or_else(earliest())` selects
chrono's earliest interpretation, and it is strictly earlier than the
other candidate. -/
theorem new_naive_ambiguous_earliest (d : NaiveDate) (t : NaiveTime)
    (e l : Zoned) (h : pacificLocal ⟨d, t⟩ = .ambiguous e l) :
    BirdDateAndTime.new_naive d t = .ok { utc := e.utc, localTime := e }
    ∧ e.utc < l.utc := by
  constructor
  · simp only [BirdDateAndTime.new_naive, h]
    rfl
  · unfold pacificLocal at h
    cases hk : pacificKind ⟨d, t⟩ <;> rw [hk] at h
    · exact absurd h (by simp)
    · exact absurd h (by simp)
    · exact absurd h (by simp)
    · injection h with h1 h2
      subst h1
      subst h2
      simp only [zonedAt, pdtOffset, pstOffset]
      omega

/-- Witness for C5 at the 2023 fall-back overlap, 2023-11-05 01:30:00. -/
theorem new_naive_ambiguous_earliest_witness :
    pacificLocal ⟨⟨2023, 11, 5⟩, ⟨1, 30, 0⟩⟩
        = .ambiguous ⟨1699173000, ⟨⟨2023, 11, 5⟩, ⟨1, 30, 0⟩⟩, -25200⟩
            ⟨1699176600, ⟨⟨2023, 11, 5⟩, ⟨1, 30, 0⟩⟩, -28800⟩
    ∧ (BirdDateAndTime.new_naive ⟨2023, 11, 5⟩ ⟨1, 30, 0⟩
        = .ok { utc := 1699173000
                localTime := ⟨1699173000, ⟨⟨2023, 11, 5⟩, ⟨1, 30, 0⟩⟩, -25200⟩ }
      ∧ (1699173000 : Int) < 1699176600) :=
  ⟨by decide,
    new_naive_ambiguous_earliest ⟨2023, 11, 5⟩ ⟨1, 30, 0⟩
      ⟨1699173000, ⟨⟨2023, 11, 5⟩, ⟨1, 30, 0⟩⟩, -25200⟩
      ⟨1699176600, ⟨⟨2023, 11, 5⟩, ⟨1, 30, 0⟩⟩, -28800⟩ (by decide)⟩

/-- C6: the claim says a wrong field count yields a `ParseError` and in
particular fewer than five fields produce an error rather than a panic.  The
code contradicts both halves: a four-field line whose date and time fields
parse panics at the `fields[4]` indexing, and a six-field line is accepted
with the extra field silently ignored. -/
theorem parse_entry_field_count_behaviour :
    BirdLog.parse_entry "2023-04-01;06:15:00;Corvus brachyrhynchos;American Crow"
        = .panicked "index out of bounds"
    ∧ BirdLog.parse_entry
        "2023-04-01;06:15:00;Corvus brachyrhynchos;American Crow;0.87;extra"
        = .ok sampleEntry
    ∧ BirdLog.parse_entry "not-a-date;06:15:00;a;b;0.87" = .err := by
  refine ⟨?_, ?_, ?_⟩ <;> decide

/-- C7 counterexample: the claim says the `LogEntry` → `DataPoint` conversion
attaches the entry's UTC instant at nanosecond resolution as the point's
timestamp.  The builder chain in src/publish.rs:155-163 never calls
`.timestamp(..)`: for the sample entry the produced point carries no
timestamp at all, in particular not 1680354900000000000 ns. -/
theorem into_data_point_no_timestamp_counterexample :
    logEntryToDataPoint sampleEntry = .ok samplePoint
    ∧ samplePoint.timestamp = none
    ∧ logEntryToDataPoint sampleEntry
        ≠ .ok { samplePoint with timestamp := some 1680354900000000000 } := by
  refine ⟨?_, ?_, ?_⟩ <;> decide

/-- C7 (amended): the conversion produces a point with measurement "birds",
the single tag station=backyard, and one field keyed by the species common
name holding the confidence value, but no timestamp is attached to the
point. -/
theorem into_data_point_shape (e : LogEntry) :
    logEntryToDataPoint e
      = .ok { measurement := "birds"
              tags := [("station", "backyard")]
              fieldSet := [(e.common_name, e.confidence)]
              timestamp := none } := rfl

/-- C8 counterexample: the claim says watch mode parses and republishes every
newly appended complete log line exactly as one-shot mode does.  After a
sample detection line is appended to the watched sample log (cursor at the
end of the header), the watch iteration emits a single stdout print of the
(first-byte-truncated) raw line and no publish action, whereas one-shot
`publish_all` on the same content publishes the parsed point. -/
theorem watch_does_not_publish_counterexample :
    (watchStep sampleLogContent.data 7).2
        = [Action.print "023-04-01;06:15:00;Corvus brachyrhynchos;American Crow;0.87"]
    ∧ ((watchStep sampleLogContent.data 7).2.all Action.isPrint) = true
    ∧ (publish_all sampleLogContent.data).1 = [Action.publish samplePoint] := by
  refine ⟨?_, ?_, ?_⟩ <;> decide

/-- C8 (amended): in watch mode every change notification results only in
stdout prints of the newly read lines; the watch loop never parses an entry
and never emits a publish action, for any file content and cursor. -/
theorem watch_only_prints (content : List Char) (pos : Nat) :
    ((watchStep content pos).2.all Action.isPrint) = true := by
  unfold watchStep
  split
  · rfl
  · show (List.map Action.print (rustLines (List.drop (pos + 1) content))).all
        Action.isPrint = true
    rw [List.all_eq_true]
    intro a ha
    rcases List.mem_map.mp ha with ⟨b, -, rfl⟩
    rfl

/-- C9: for every candidate row, the derived audio URL is
`http://192.168.0.164/By_Date/{local date}/{common name with spaces replaced
by underscores}/{file name}` and the spectrogram URL is that string with
`.png` appended; only the common-name segment is substituted, as the verbatim
spacey file name in the last example shows. -/
theorem files_for_url_derivation :
    (∀ (b : BirdDateAndTime) (c f : String) (conf : DecimalValue),
        (files_for_row b f c conf).audio_url
            = "http://192.168.0.164/By_Date/"
                ++ formatYmd b.localTime.localCivil.date ++ "/"
                ++ urlify_string c ++ "/" ++ f
        ∧ (files_for_row b f c conf).spectrogram_url
            = (files_for_row b f c conf).audio_url ++ ".png")
    ∧ audio_url_of "2023-04-01" "Black-capped Chickadee" "x.wav"
        = "http://192.168.0.164/By_Date/2023-04-01/Black-capped_Chickadee/x.wav"
    ∧ spectrogram_url_of "2023-04-01" "Black-capped Chickadee" "x.wav"
        = "http://192.168.0.164/By_Date/2023-04-01/Black-capped_Chickadee/x.wav.png"
    ∧ audio_url_of "2023-04-01" "Black-capped Chickadee" "x y.wav"
        = "http://192.168.0.164/By_Date/2023-04-01/Black-capped_Chickadee/x y.wav"
    ∧ urlify_string "Black-capped Chickadee" = "Black-capped_Chickadee" := by
  refine ⟨fun b c f conf => ⟨rfl, rfl⟩, ?_, ?_, ?_, ?_⟩ <;> decide

/-- C10: `head_url` reports success exactly when the response is a `200 OK`
status; any other status (other 2xx and redirects included) and any transport
error count as unavailable. -/
theorem head_url_success_iff_status_200 (probe : String → ProbeResult)
    (url : String) :
    (head_url probe url = true ↔ probe url = .status 200)
    ∧ head_url (fun _ => .status 204) url = false
    ∧ head_url (fun _ => .status 302) url = false
    ∧ head_url (fun _ => .failed) url = false := by
  refine ⟨?_, rfl, rfl, rfl⟩
  constructor
  · intro h
    unfold head_url at h
    cases hp : probe url with
    | status s =>
        rw [hp] at h
        have h' : (if s = 200 then true else false) = true := h
        by_cases h2 : s = 200
        · rw [h2]
        · rw [if_neg h2] at h'
          exact absurd h' (by simp)
    | failed =>
        rw [hp] at h
        have h' : false = true := h
        exact absurd h' (by simp)
  · intro h
    unfold head_url
    rw [h]
    rfl

end Birbs
